import Mathlib

set_option maxRecDepth 100000

/-!
Verification of the request-lifecycle core of an HTTP client:
the multipart/form-data encoder (`src/multipart_detail.rs`),
the body model (`src/wasm/body.rs`), cookie parsing (`src/cookie.rs`)
and the redirect-following hop logic (`src/wasm/client.rs`).

Bytes are modelled as `Nat` values below 256, byte strings as `List Nat`.
-/

namespace Reqwest

/-- UTF-8 encoding of a single Unicode code point, as in Rust `str` bytes. -/
def charUtf8 (n : Nat) : List Nat :=
  if n < 128 then [n]
  else if n < 2048 then [192 + n / 64, 128 + n % 64]
  else if n < 65536 then [224 + n / 4096, 128 + n / 64 % 64, 128 + n % 64]
  else [240 + n / 262144, 128 + n / 4096 % 64, 128 + n / 64 % 64, 128 + n % 64]

/-- The UTF-8 bytes of a string, as Rust's `str::as_bytes`. -/
def utf8Bytes (s : String) : List Nat :=
  s.data.foldr (fun c acc => charUtf8 c.toNat ++ acc) []

/-! ## Percent-encoding sets (multipart_detail.rs lines 401-427)

The `percent_encoding` crate's `AsciiSet` is modelled as a boolean predicate on
bytes.  `CONTROLS` is the crate's C0-controls-and-DEL set; `add`/`remove`
become disjunction with / exclusion of the named byte. -/

/-- The `percent_encoding::CONTROLS` set: C0 controls and DEL. -/
def CONTROLS (b : Nat) : Bool := b < 32 || b == 127

/-- https://url.spec.whatwg.org/#fragment-percent-encode-set -/
def FRAGMENT_ENCODE_SET (b : Nat) : Bool :=
  CONTROLS b || b == 32 || b == 34 || b == 60 || b == 62 || b == 96

/-- https://url.spec.whatwg.org/#path-percent-encode-set -/
def PATH_ENCODE_SET (b : Nat) : Bool :=
  FRAGMENT_ENCODE_SET b || b == 35 || b == 63 || b == 123 || b == 125

def PATH_SEGMENT_ENCODE_SET (b : Nat) : Bool :=
  PATH_ENCODE_SET b || b == 47 || b == 37

def isAsciiAlphanumeric (b : Nat) : Bool :=
  (48 ≤ b && b ≤ 57) || (65 ≤ b && b ≤ 90) || (97 ≤ b && b ≤ 122)

/-- The `percent_encoding::NON_ALPHANUMERIC` set (an `AsciiSet` holds only
ASCII bytes). -/
def NON_ALPHANUMERIC (b : Nat) : Bool := b < 128 && !isAsciiAlphanumeric b

/-- https://tools.ietf.org/html/rfc8187#section-3.2.1 -/
def ATTR_CHAR_ENCODE_SET (b : Nat) : Bool :=
  NON_ALPHANUMERIC b &&
    !(b == 33 || b == 35 || b == 36 || b == 38 || b == 43 || b == 45 ||
      b == 46 || b == 94 || b == 95 || b == 96 || b == 124 || b == 126)

/-- The `percent_encoding` crate escapes a byte iff it is not ASCII or lies in
the given set (`AsciiSet::should_percent_encode`). -/
def shouldPercentEncode (set : Nat → Bool) (b : Nat) : Bool := 128 ≤ b || set b

def hexDigitUpper (n : Nat) : Nat := if n < 10 then 48 + n else 55 + n

/-- `%XY` with uppercase hex, as the crate's `percent_encode_byte`. -/
def percentEncodeByte (b : Nat) : List Nat :=
  [37, hexDigitUpper (b / 16), hexDigitUpper (b % 16)]

/-- `percent_encoding::utf8_percent_encode` on the UTF-8 bytes of the value. -/
def percentEncode (set : Nat → Bool) (bs : List Nat) : List Nat :=
  bs.foldr (fun b acc =>
    (if shouldPercentEncode set b then percentEncodeByte b else [b]) ++ acc) []

/-! ## PercentEncoding (multipart_detail.rs lines 429-490) -/

inductive PercentEncoding where
  | PathSegment
  | AttrChar
  | NoOp
deriving DecidableEq

/-- `Rust str::replace` specialised to a one-byte needle (every needle used by
`format_filename` is a single ASCII byte, so the non-overlapping occurrences
are exactly the matching bytes). -/
def replaceByte (needle : Nat) (repl : List Nat) (s : List Nat) : List Nat :=
  s.foldr (fun b acc => (if b == needle then repl else [b]) ++ acc) []

/-- `PercentEncoding::format_filename`: escape backslash, double quote, CR and
LF by backslash-prefixing, then emit `filename="<escaped>"`.  The Rust method
ignores `self`; the mode parameter is kept to mirror the signature. -/
def PercentEncoding.format_filename (_enc : PercentEncoding) (filename : List Nat) :
    List Nat :=
  let legal_filename :=
    replaceByte 10 [92, 10] (replaceByte 13 [92, 13]
      (replaceByte 34 [92, 34] (replaceByte 92 [92, 92] filename)))
  utf8Bytes "filename=\"" ++ legal_filename ++ [34]

/-- The `legal_value` computed inside `format_parameter`: the value
percent-encoded under the active mode. -/
def PercentEncoding.encodeValue (enc : PercentEncoding) (value : List Nat) :
    List Nat :=
  match enc with
  | .PathSegment => percentEncode PATH_SEGMENT_ENCODE_SET value
  | .AttrChar => percentEncode ATTR_CHAR_ENCODE_SET value
  | .NoOp => value

/-- `PercentEncoding::format_parameter`: percent-encode the value under the
active mode; if the byte length is unchanged emit `name="value"` with the
original value, otherwise the RFC 8187 extended form. -/
def PercentEncoding.format_parameter (enc : PercentEncoding)
    (name value : List Nat) : List Nat :=
  let legal_value := enc.encodeValue value
  if value.length == legal_value.length then
    name ++ utf8Bytes "=\"" ++ value ++ [34]
  else
    name ++ utf8Bytes "*=utf-8''" ++ legal_value

/-- `PartMetadata`: the mime is the rendered `Display` of the `Mime` value. -/
structure PartMetadata where
  mime : Option (List Nat)
  file_name : Option (List Nat)
  headers : List (List Nat × List Nat)
deriving DecidableEq

def PartMetadata.new : PartMetadata := ⟨none, none, []⟩

def PartMetadata.mimeSet (m : PartMetadata) (mime : List Nat) : PartMetadata :=
  { m with mime := some mime }

def PartMetadata.file_nameSet (m : PartMetadata) (fn : List Nat) : PartMetadata :=
  { m with file_name := some fn }

/-- `PercentEncoding::encode_headers`. -/
def PercentEncoding.encode_headers (enc : PercentEncoding) (name : List Nat)
    (field : PartMetadata) : List Nat :=
  let s :=
    utf8Bytes "Content-Disposition: form-data; "
      ++ enc.format_parameter (utf8Bytes "name") name
      ++ (match field.file_name with
          | some file_name => utf8Bytes "; " ++ enc.format_filename file_name
          | none => [])
      ++ (match field.mime with
          | some mime => utf8Bytes "\r\nContent-Type: " ++ mime
          | none => [])
  field.headers.foldl
    (fun header kv => header ++ utf8Bytes "\r\n" ++ kv.1 ++ utf8Bytes ": " ++ kv.2) s

/-! ## Body model (wasm/body.rs) -/

/-- `Body`'s `Inner`: a reusable byte buffer or a streaming chunk sequence.
The lazy chunk producer is modelled by the list of chunks it yields. -/
inductive BodyM where
  | reusable (bytes : List Nat)
  | streaming (chunks : List (List Nat))
deriving DecidableEq

def BodyM.empty : BodyM := .reusable []

/-- `Body::content_length`: `Some` for `Reusable`, `None` for `Streaming`. -/
def BodyM.content_length : BodyM → Option Nat
  | .reusable bytes => some bytes.length
  | .streaming _ => none

/-- The chunk sequence of `Body::into_stream` (`ImplStream::poll_next`): a
nonempty reusable buffer is yielded as one chunk then the stream ends, an
empty one yields nothing, a streaming body forwards its chunks. -/
def BodyM.into_stream : BodyM → List (List Nat)
  | .reusable bytes => if bytes.isEmpty then [] else [bytes]
  | .streaming chunks => chunks

/-- Concatenation of a chunk sequence into the byte stream it carries. -/
def joinChunks : List (List Nat) → List Nat
  | [] => []
  | c :: cs => c ++ joinChunks cs

/-- All bytes a body produces. -/
def BodyM.bytes : BodyM → List Nat
  | .reusable b => b
  | .streaming cs => joinChunks cs

/-! ## Form / Part (multipart_detail.rs) -/

structure Part where
  meta : PartMetadata
  value : BodyM
deriving DecidableEq

/-- `Part::text` / `Part::bytes`: the value becomes a reusable buffer. -/
def Part.text (value : List Nat) : Part := ⟨PartMetadata.new, .reusable value⟩

/-- `Part::stream`: wraps an already-built body (e.g. `Body::stream`). -/
def Part.streamOf (value : BodyM) : Part := ⟨PartMetadata.new, value⟩

def Part.mime (p : Part) (m : List Nat) : Part := { p with meta := p.meta.mimeSet m }

def Part.file_name (p : Part) (fn : List Nat) : Part :=
  { p with meta := p.meta.file_nameSet fn }

/-- `Part`'s `PartProps::value_len`. -/
def Part.value_len (p : Part) : Option Nat := p.value.content_length

structure FormParts where
  boundary : List Nat
  computed_headers : List (List Nat)
  fields : List (List Nat × Part)
  percent_encoding : PercentEncoding
deriving DecidableEq

/-- `FormParts::new`; the Rust code draws the boundary from a thread-local
xor-shift generator (`gen_boundary`), so the fresh boundary is a parameter. -/
def FormParts.new (boundary : List Nat) : FormParts :=
  ⟨boundary, [], [], .PathSegment⟩

/-- `FormParts::part`: append the named part to the field list. -/
def FormParts.part (fp : FormParts) (name : List Nat) (p : Part) : FormParts :=
  { fp with fields := fp.fields ++ [(name, p)] }

def FormParts.percent_encode_attr_chars (fp : FormParts) : FormParts :=
  { fp with percent_encoding := .AttrChar }

def FormParts.percent_encode_noop (fp : FormParts) : FormParts :=
  { fp with percent_encoding := .NoOp }

/-- The chunk sequence of `Form::part_stream`: boundary line, serialized
headers plus blank line, the value's own chunks, a trailing CRLF. -/
def partStream (boundary : List Nat) (enc : PercentEncoding)
    (name : List Nat) (p : Part) : List (List Nat) :=
  (utf8Bytes "--" ++ boundary ++ utf8Bytes "\r\n")
    :: (enc.encode_headers name p.meta ++ utf8Bytes "\r\n\r\n")
    :: (p.value.into_stream ++ [utf8Bytes "\r\n"])

/-- The fold in `Form::stream` that chains one part stream per field. -/
def chainParts (boundary : List Nat) (enc : PercentEncoding)
    (l : List (List Nat × Part)) : List (List Nat) :=
  l.foldr (fun np acc => partStream boundary enc np.1 np.2 ++ acc) []

/-- `Form::stream`: an empty form gives an empty reusable body; otherwise the
first field's part stream is chained with the remaining fields' streams and
the final `--boundary--CRLF` chunk. -/
def FormParts.stream (fp : FormParts) : BodyM :=
  match fp.fields with
  | [] => BodyM.empty
  | (name, p) :: rest =>
    BodyM.streaming
      (partStream fp.boundary fp.percent_encoding name p
        ++ chainParts fp.boundary fp.percent_encoding rest
        ++ [utf8Bytes "--" ++ fp.boundary ++ utf8Bytes "--\r\n"])

/-- The whole byte stream `Form::stream` produces. -/
def FormParts.streamBytes (fp : FormParts) : List Nat := fp.stream.bytes

/-- The loop body of `FormParts::compute_length`: accumulate each field's
contribution and the headers pushed onto `computed_headers`; abort with
`none` at the first field of unknown length (keeping the pushes made so
far, as the Rust `return None` does). -/
def computeLengthGo (boundary : List Nat) (enc : PercentEncoding) :
    List (List Nat × Part) → Nat → List (List Nat) → Option Nat × List (List Nat)
  | [], len, pushed => (some len, pushed)
  | (name, p) :: rest, len, pushed =>
    match p.value_len with
    | some value_length =>
      let header := enc.encode_headers name p.meta
      computeLengthGo boundary enc rest
        (len + 2 + boundary.length + 2 + header.length + 4 + value_length + 2)
        (pushed ++ [header])
    | none => (none, pushed)

/-- `FormParts::compute_length` together with its `&mut self` effect: the
result and the updated form state (only `computed_headers` grows). -/
def FormParts.compute_length (fp : FormParts) : Option Nat × FormParts :=
  match computeLengthGo fp.boundary fp.percent_encoding fp.fields 0 [] with
  | (none, pushed) =>
    (none, { fp with computed_headers := fp.computed_headers ++ pushed })
  | (some len, pushed) =>
    (some (if fp.fields.isEmpty then len else len + (2 + fp.boundary.length + 4)),
     { fp with computed_headers := fp.computed_headers ++ pushed })

/-! ## Concrete forms used by the testable properties -/

/-- The five-field form of spec §8 property 1 (the `stream_to_end` test),
with the boundary fixed to `"boundary"`. -/
def exampleForm : FormParts :=
  (((((FormParts.new (utf8Bytes "boundary")).part (utf8Bytes "reader1")
      (Part.streamOf (.streaming [utf8Bytes "part1"]))).part (utf8Bytes "key1")
      (Part.text (utf8Bytes "value1"))).part (utf8Bytes "key2")
      ((Part.text (utf8Bytes "value2")).mime (utf8Bytes "image/bmp"))).part
      (utf8Bytes "reader2")
      (Part.streamOf (.streaming [utf8Bytes "part2"]))).part (utf8Bytes "key3")
      ((Part.text (utf8Bytes "value3")).file_name (utf8Bytes "filename"))

/-- The exact byte stream spec §8 property 1 expects. -/
def expectedExampleBytes : List Nat :=
  utf8Bytes ("--boundary\r\nContent-Disposition: form-data; name=\"reader1\"\r\n\r\npart1\r\n"
    ++ "--boundary\r\nContent-Disposition: form-data; name=\"key1\"\r\n\r\nvalue1\r\n"
    ++ "--boundary\r\nContent-Disposition: form-data; name=\"key2\"\r\nContent-Type: image/bmp\r\n\r\nvalue2\r\n"
    ++ "--boundary\r\nContent-Disposition: form-data; name=\"reader2\"\r\n\r\npart2\r\n"
    ++ "--boundary\r\nContent-Disposition: form-data; name=\"key3\"; filename=\"filename\"\r\n\r\nvalue3\r\n"
    ++ "--boundary--\r\n")

/-- A small form whose fields are all reusable. -/
def reusableForm : FormParts :=
  ((FormParts.new (utf8Bytes "bnd")).part (utf8Bytes "a")
      (Part.text (utf8Bytes "xy"))).part (utf8Bytes "b")
    ((Part.text (utf8Bytes "z")).file_name (utf8Bytes "f"))

/-- A form with a streaming field among reusable ones. -/
def mixedForm : FormParts :=
  ((FormParts.new (utf8Bytes "bnd")).part (utf8Bytes "a")
      (Part.text (utf8Bytes "xy"))).part (utf8Bytes "s")
    (Part.streamOf (.streaming [utf8Bytes "one", utf8Bytes "two"]))

/-! ## Helper lemmas about chunk concatenation and lengths -/

lemma joinChunks_append (a b : List (List Nat)) :
    joinChunks (a ++ b) = joinChunks a ++ joinChunks b := by
  induction a with
  | nil => rfl
  | cons c cs ih => simp [joinChunks, ih]

lemma joinChunks_into_stream (b : BodyM) : joinChunks b.into_stream = b.bytes := by
  cases b with
  | reusable bs => cases bs <;> simp [BodyM.into_stream, BodyM.bytes, joinChunks]
  | streaming cs => rfl

/-- Per-field byte contribution, exactly as claim C1 describes it: boundary
line, serialized headers, blank line, the value's own bytes, trailing CRLF. -/
def fieldBytes (boundary : List Nat) (enc : PercentEncoding)
    (name : List Nat) (p : Part) : List Nat :=
  utf8Bytes "--" ++ boundary ++ utf8Bytes "\r\n"
    ++ enc.encode_headers name p.meta ++ utf8Bytes "\r\n\r\n"
    ++ p.value.bytes ++ utf8Bytes "\r\n"

lemma joinChunks_partStream (bd : List Nat) (enc : PercentEncoding)
    (n : List Nat) (p : Part) :
    joinChunks (partStream bd enc n p) = fieldBytes bd enc n p := by
  simp [partStream, fieldBytes, joinChunks, joinChunks_append, joinChunks_into_stream]

lemma joinChunks_chainParts (bd : List Nat) (enc : PercentEncoding)
    (l : List (List Nat × Part)) :
    joinChunks (chainParts bd enc l)
      = joinChunks (l.map fun np => fieldBytes bd enc np.1 np.2) := by
  induction l with
  | nil => rfl
  | cons np rest ih =>
    have hstep : chainParts bd enc (np :: rest)
        = partStream bd enc np.1 np.2 ++ chainParts bd enc rest := rfl
    rw [hstep, joinChunks_append, joinChunks_partStream, ih]
    simp [joinChunks]

/-- The assembled byte stream of a nonempty form. -/
lemma streamBytes_nonempty (fp : FormParts) (h : fp.fields ≠ []) :
    ∃ cs, fp.stream = BodyM.streaming cs ∧
      joinChunks cs
        = joinChunks (fp.fields.map fun np =>
            fieldBytes fp.boundary fp.percent_encoding np.1 np.2)
          ++ (utf8Bytes "--" ++ fp.boundary ++ utf8Bytes "--\r\n") := by
  rcases hf : fp.fields with _ | ⟨⟨n, p⟩, rest⟩
  · exact absurd hf h
  · refine ⟨partStream fp.boundary fp.percent_encoding n p
        ++ chainParts fp.boundary fp.percent_encoding rest
        ++ [utf8Bytes "--" ++ fp.boundary ++ utf8Bytes "--\r\n"], ?_, ?_⟩
    · simp [FormParts.stream, hf]
    · rw [joinChunks_append, joinChunks_append, joinChunks_partStream,
        joinChunks_chainParts]
      simp [joinChunks]

/-- The per-field summand of `compute_length`, with `value_len.getD 0`
standing for the known value length. -/
def fieldContribution (boundary : List Nat) (enc : PercentEncoding)
    (np : List Nat × Part) : Nat :=
  2 + boundary.length + 2 + (enc.encode_headers np.1 np.2.meta).length + 4
    + np.2.value_len.getD 0 + 2

lemma computeLengthGo_fst (bd : List Nat) (enc : PercentEncoding)
    (fields : List (List Nat × Part))
    (h : ∀ np ∈ fields, np.2.value_len.isSome) :
    ∀ len pushed, (computeLengthGo bd enc fields len pushed).1
      = some (len + (fields.map (fieldContribution bd enc)).sum) := by
  induction fields with
  | nil => intro len pushed; simp [computeLengthGo]
  | cons np rest ih =>
    intro len pushed
    obtain ⟨name, p⟩ := np
    have h1 : (Part.value_len p).isSome := h (name, p) (by simp)
    obtain ⟨vl, hvl⟩ := Option.isSome_iff_exists.mp h1
    rw [show computeLengthGo bd enc ((name, p) :: rest) len pushed
        = (match p.value_len with
          | some value_length =>
            computeLengthGo bd enc rest
              (len + 2 + bd.length + 2 + (enc.encode_headers name p.meta).length
                + 4 + value_length + 2)
              (pushed ++ [enc.encode_headers name p.meta])
          | none => (none, pushed)) from rfl, hvl]
    rw [ih (fun np hnp => h np (by simp [hnp]))]
    simp only [List.map_cons, List.sum_cons, fieldContribution, hvl, Option.getD_some]
    congr 1
    omega

lemma computeLengthGo_none (bd : List Nat) (enc : PercentEncoding)
    (fields : List (List Nat × Part))
    (h : ∃ np ∈ fields, np.2.value_len = none) :
    ∀ len pushed, (computeLengthGo bd enc fields len pushed).1 = none := by
  induction fields with
  | nil => simp at h
  | cons np rest ih =>
    intro len pushed
    obtain ⟨name, p⟩ := np
    rw [show computeLengthGo bd enc ((name, p) :: rest) len pushed
        = (match p.value_len with
          | some value_length =>
            computeLengthGo bd enc rest
              (len + 2 + bd.length + 2 + (enc.encode_headers name p.meta).length
                + 4 + value_length + 2)
              (pushed ++ [enc.encode_headers name p.meta])
          | none => (none, pushed)) from rfl]
    rcases hp : p.value_len with _ | vl
    · rfl
    · rcases h with ⟨np', hmem, hnone⟩
      rcases List.mem_cons.mp hmem with heq | hmem'
      · rw [heq] at hnone; simp [Part.value_len] at hnone hp; simp [hnone] at hp
      · exact ih ⟨np', hmem', hnone⟩ _ _

lemma fieldBytes_length (bd : List Nat) (enc : PercentEncoding)
    (np : List Nat × Part) (h : np.2.value_len.isSome) :
    (fieldBytes bd enc np.1 np.2).length = fieldContribution bd enc np := by
  obtain ⟨name, p⟩ := np
  obtain ⟨meta, value⟩ := p
  cases value with
  | reusable b =>
    simp [fieldBytes, fieldContribution, Part.value_len, BodyM.content_length,
      BodyM.bytes]
    have h2 : (utf8Bytes "--").length = 2 := by decide
    have h2' : (utf8Bytes "\r\n").length = 2 := by decide
    have h4 : (utf8Bytes "\r\n\r\n").length = 4 := by decide
    omega
  | streaming cs =>
    simp [Part.value_len, BodyM.content_length] at h

lemma joinChunks_length (l : List (List Nat)) :
    (joinChunks l).length = (l.map List.length).sum := by
  induction l with
  | nil => rfl
  | cons c cs ih => simp [joinChunks, ih]

/-! ## Claim theorems: multipart encoder -/

/-- C1: `stream()` gives, for an empty form, an empty reusable body; otherwise
its chunks concatenate, in field insertion order, to one block per field —
boundary line `--{boundary}\r\n`, the serialized headers of
`encode_headers(name, metadata)` with a blank line, the value's own chunk
bytes, a trailing CRLF — followed by the final `--{boundary}--\r\n` chunk;
and on the five fields of spec §8 property 1 with boundary `"boundary"` the
bytes equal the expected string exactly. -/
theorem claim1_stream_assembly (fp : FormParts) :
    (fp.fields = [] → fp.stream = BodyM.reusable [])
    ∧ (fp.fields ≠ [] → ∃ cs, fp.stream = BodyM.streaming cs ∧
        joinChunks cs
          = joinChunks (fp.fields.map fun np =>
              fieldBytes fp.boundary fp.percent_encoding np.1 np.2)
            ++ (utf8Bytes "--" ++ fp.boundary ++ utf8Bytes "--\r\n"))
    ∧ exampleForm.streamBytes = expectedExampleBytes := by
  refine ⟨?_, streamBytes_nonempty fp, ?_⟩
  · intro h
    simp [FormParts.stream, h, BodyM.empty]
  · decide

theorem claim1_stream_assembly_witness :
    (FormParts.new (utf8Bytes "x")).fields = []
    ∧ (FormParts.new (utf8Bytes "x")).stream = BodyM.reusable []
    ∧ exampleForm.fields ≠ []
    ∧ (∃ cs, exampleForm.stream = BodyM.streaming cs ∧
        joinChunks cs
          = joinChunks (exampleForm.fields.map fun np =>
              fieldBytes exampleForm.boundary exampleForm.percent_encoding np.1 np.2)
            ++ (utf8Bytes "--" ++ exampleForm.boundary ++ utf8Bytes "--\r\n")) :=
  ⟨by decide,
   (claim1_stream_assembly (FormParts.new (utf8Bytes "x"))).1 (by decide),
   by decide,
   (claim1_stream_assembly exampleForm).2.1 (by decide)⟩

/-- C2: on a form all of whose field values report a known length,
`compute_length()` returns exactly the byte count of the stream `stream()`
produces (in particular `some 0` for the empty form). -/
theorem claim2_compute_length_agreement (fp : FormParts)
    (h : ∀ np ∈ fp.fields, np.2.value.content_length.isSome) :
    (fp.compute_length).1 = some fp.streamBytes.length := by
  have hval : ∀ np ∈ fp.fields, np.2.value_len.isSome := h
  rcases hfe : fp.fields with _ | ⟨⟨n, p⟩, rest⟩
  · simp [FormParts.compute_length, computeLengthGo, hfe, FormParts.streamBytes,
      FormParts.stream, BodyM.empty, BodyM.bytes]
  · have hne : fp.fields ≠ [] := by rw [hfe]; simp
    obtain ⟨cs, hcs, hjoin⟩ := streamBytes_nonempty fp hne
    have hgo := computeLengthGo_fst fp.boundary fp.percent_encoding fp.fields hval 0 []
    rcases hg : computeLengthGo fp.boundary fp.percent_encoding fp.fields 0 []
      with ⟨r, pushed⟩
    rw [hg] at hgo
    simp only at hgo
    subst hgo
    have hlen : fp.streamBytes.length
        = (fp.fields.map (fieldContribution fp.boundary fp.percent_encoding)).sum
          + (2 + fp.boundary.length + 4) := by
      have hmap : (fp.fields.map fun np =>
            (fieldBytes fp.boundary fp.percent_encoding np.1 np.2).length)
          = fp.fields.map (fieldContribution fp.boundary fp.percent_encoding) := by
        apply List.map_congr_left
        intro np hnp
        exact fieldBytes_length fp.boundary fp.percent_encoding np (hval np hnp)
      have h2 : (utf8Bytes "--").length = 2 := by decide
      have h6 : (utf8Bytes "--\r\n").length = 4 := by decide
      calc fp.streamBytes.length = (joinChunks cs).length := by
            simp [FormParts.streamBytes, hcs, BodyM.bytes]
        _ = (joinChunks (fp.fields.map fun np =>
              fieldBytes fp.boundary fp.percent_encoding np.1 np.2)).length
            + ((utf8Bytes "--").length + fp.boundary.length
              + (utf8Bytes "--\r\n").length) := by
            rw [hjoin]; simp [List.length_append]; omega
        _ = (fp.fields.map (fieldContribution fp.boundary fp.percent_encoding)).sum
            + (2 + fp.boundary.length + 4) := by
            rw [joinChunks_length, List.map_map, h2, h6]
            simp only [Function.comp_def]
            rw [hmap]
    rw [hlen]
    have hisEmpty : fp.fields.isEmpty = false := by rw [hfe]; rfl
    have hfst : (fp.compute_length).1
        = some (0 + (fp.fields.map (fieldContribution fp.boundary fp.percent_encoding)).sum
            + (2 + fp.boundary.length + 4)) := by
      unfold FormParts.compute_length
      rw [hg]
      simp [hisEmpty]
    rw [hfst]
    simp only [Option.some.injEq]
    omega

theorem claim2_compute_length_agreement_witness :
    (∀ np ∈ reusableForm.fields, np.2.value.content_length.isSome)
    ∧ (reusableForm.compute_length).1 = some reusableForm.streamBytes.length :=
  ⟨by decide, claim2_compute_length_agreement reusableForm (by decide)⟩

/-- C8: a form containing any field whose value has unknown length (a
streaming body) makes `compute_length()` return `None` for the whole form. -/
theorem claim8_streaming_field_unknown_length (fp : FormParts)
    (h : ∃ np ∈ fp.fields, np.2.value.content_length = none) :
    (fp.compute_length).1 = none := by
  have hgo := computeLengthGo_none fp.boundary fp.percent_encoding fp.fields h 0 []
  rcases hg : computeLengthGo fp.boundary fp.percent_encoding fp.fields 0 []
    with ⟨r, pushed⟩
  rw [hg] at hgo
  simp only at hgo
  subst hgo
  simp [FormParts.compute_length, hg]

theorem claim8_streaming_field_unknown_length_witness :
    (∃ np ∈ mixedForm.fields, np.2.value.content_length = none)
    ∧ (mixedForm.compute_length).1 = none :=
  ⟨by decide, claim8_streaming_field_unknown_length mixedForm (by decide)⟩

/-- C10: `compute_length()` changes nothing but the `computed_headers` cache
(it only appends to it), so the boundary, fields, order, metadata and mode are
untouched, `stream()` later produces the identical byte stream, and a repeated
`compute_length()` returns the same result. -/
theorem claim10_compute_length_frame (fp : FormParts) :
    (fp.compute_length).2.boundary = fp.boundary
    ∧ (fp.compute_length).2.fields = fp.fields
    ∧ (fp.compute_length).2.percent_encoding = fp.percent_encoding
    ∧ (∃ hs, (fp.compute_length).2.computed_headers = fp.computed_headers ++ hs)
    ∧ (fp.compute_length).2.stream = fp.stream
    ∧ ((fp.compute_length).2.compute_length).1 = (fp.compute_length).1 := by
  obtain ⟨bd, ch, fs, enc⟩ := fp
  rcases hg : computeLengthGo bd enc fs 0 [] with ⟨r, pushed⟩
  cases r with
  | none =>
    refine ⟨?_, ?_, ?_, ⟨pushed, ?_⟩, ?_, ?_⟩ <;>
      simp [FormParts.compute_length, hg, FormParts.stream]
  | some len =>
    refine ⟨?_, ?_, ?_, ⟨pushed, ?_⟩, ?_, ?_⟩ <;>
      simp [FormParts.compute_length, hg, FormParts.stream]

/-! ## Claim C6/C7: header parameter encoding -/

lemma percentEncode_cons (set : Nat → Bool) (b : Nat) (bs : List Nat) :
    percentEncode set (b :: bs)
      = (if shouldPercentEncode set b then percentEncodeByte b else [b])
        ++ percentEncode set bs := rfl

lemma percentEncode_length_ge (set : Nat → Bool) (bs : List Nat) :
    bs.length ≤ (percentEncode set bs).length := by
  induction bs with
  | nil => simp [percentEncode]
  | cons b bs ih =>
    rw [percentEncode_cons]
    by_cases hb : shouldPercentEncode set b = true <;>
      simp [hb, percentEncodeByte] <;> omega

/-- Length preservation under percent-encoding means nothing was escaped. -/
lemma percentEncode_length_eq_iff (set : Nat → Bool) (bs : List Nat) :
    (percentEncode set bs).length = bs.length ↔ percentEncode set bs = bs := by
  constructor
  · intro h
    induction bs with
    | nil => rfl
    | cons b bs ih =>
      rw [percentEncode_cons] at h ⊢
      have hge := percentEncode_length_ge set bs
      by_cases hb : shouldPercentEncode set b = true
      · rw [hb] at h
        simp [percentEncodeByte] at h
        omega
      · simp only [Bool.not_eq_true] at hb
        rw [hb] at h ⊢
        simp at h ⊢
        exact ih h
  · intro h; rw [h]

/-- One-byte backslash escaping, as claim C7 words it: each backslash, double
quote, CR and LF is prefixed by a backslash; all other bytes pass through. -/
def backslashEscape (s : List Nat) : List Nat :=
  s.foldr (fun b acc =>
    (if b == 92 || b == 34 || b == 13 || b == 10 then [92, b] else [b]) ++ acc) []

lemma replaceByte_append (n : Nat) (r a c : List Nat) :
    replaceByte n r (a ++ c) = replaceByte n r a ++ replaceByte n r c := by
  induction a with
  | nil => rfl
  | cons b bs ih => simp [replaceByte, List.foldr_cons] at *; simp [ih]

/-- The four sequential `str::replace` calls of `format_filename` implement
the one-pass backslash escape. -/
lemma replace_chain_eq_backslashEscape (s : List Nat) :
    replaceByte 10 [92, 10] (replaceByte 13 [92, 13]
      (replaceByte 34 [92, 34] (replaceByte 92 [92, 92] s)))
      = backslashEscape s := by
  induction s with
  | nil => rfl
  | cons b bs ih =>
    have hcons : replaceByte 92 [92, 92] (b :: bs)
        = (if b == 92 then [92, 92] else [b]) ++ replaceByte 92 [92, 92] bs := rfl
    rw [hcons, replaceByte_append, replaceByte_append, replaceByte_append, ih]
    have hhd : replaceByte 10 [92, 10] (replaceByte 13 [92, 13]
        (replaceByte 34 [92, 34] (if b == 92 then [92, 92] else [b])))
        = (if b == 92 || b == 34 || b == 13 || b == 10 then [92, b] else [b]) := by
      by_cases h92 : b = 92
      · subst h92; decide
      · by_cases h34 : b = 34
        · subst h34; decide
        · by_cases h13 : b = 13
          · subst h13; decide
          · by_cases h10 : b = 10
            · subst h10; decide
            · simp [replaceByte, h92, h34, h13, h10]
    rw [hhd]
    rfl

/-- C7: for any part with a file name and any percent-encoding mode, the
filename parameter is emitted as `filename="<escaped>"` where the escape
prefixes backslash, double quote, CR and LF with a backslash; the filename is
never percent-encoded and never emitted in extended `filename*=` form, and
the result is independent of the mode. -/
theorem claim7_filename_always_quoted (enc : PercentEncoding) (name : List Nat)
    (meta : PartMetadata) (fn : List Nat) (h : meta.file_name = some fn) :
    (∀ enc' : PercentEncoding, enc.format_filename fn = enc'.format_filename fn)
    ∧ enc.format_filename fn
      = utf8Bytes "filename=\"" ++ backslashEscape fn ++ [34]
    ∧ enc.encode_headers name meta
      = meta.headers.foldl
          (fun header kv =>
            header ++ utf8Bytes "\r\n" ++ kv.1 ++ utf8Bytes ": " ++ kv.2)
          (utf8Bytes "Content-Disposition: form-data; "
            ++ enc.format_parameter (utf8Bytes "name") name
            ++ (utf8Bytes "; "
              ++ (utf8Bytes "filename=\"" ++ backslashEscape fn ++ [34]))
            ++ (match meta.mime with
                | some mime => utf8Bytes "\r\nContent-Type: " ++ mime
                | none => [])) := by
  refine ⟨fun enc' => rfl, ?_, ?_⟩
  · simp [PercentEncoding.format_filename, replace_chain_eq_backslashEscape]
  · simp [PercentEncoding.encode_headers, PercentEncoding.format_filename, h,
      replace_chain_eq_backslashEscape]

theorem claim7_filename_always_quoted_witness :
    PercentEncoding.AttrChar.format_filename (utf8Bytes "a\"b\\c\r\nd")
      = utf8Bytes "filename=\"" ++ backslashEscape (utf8Bytes "a\"b\\c\r\nd") ++ [34] :=
  (claim7_filename_always_quoted PercentEncoding.AttrChar (utf8Bytes "n")
    (PartMetadata.new.file_nameSet (utf8Bytes "a\"b\\c\r\nd"))
    (utf8Bytes "a\"b\\c\r\nd") rfl).2.1

/-- C6 counterexample: the claim's concrete example is false on the code.  The
name the spec writes ends in the two characters `√ü` (UTF-8 bytes
E2 88 9A C3 BC), and percent-encoding those bytes cannot produce the claimed
`%C3%9F`; `encode_headers` on that name differs from the claimed output. -/
theorem claim6_counterexample :
    PercentEncoding.PathSegment.encode_headers
        (utf8Bytes "start%'\"\r\n√üend") PartMetadata.new
      ≠ utf8Bytes
          "Content-Disposition: form-data; name*=utf-8''start%25'%22%0D%0A%C3%9Fend" := by
  decide

/-- C6 (amended): `format_parameter` percent-encodes the value under the
active mode — `PathSegment` escapes non-ASCII bytes, controls and the WHATWG
path-segment set (space, quote, angle brackets, backtick, hash, question
mark, curly braces, slash, percent); `AttrChar` escapes everything except
ASCII alphanumerics and the RFC 8187 attr-char set; `NoOp` escapes nothing —
and emits `name="value"` quoted and unescaped when the encoded byte length is
unchanged (equivalently, when nothing was escaped), else the extended
`name*=utf-8''<encoded>` form.  The spec's example name (ending in the two
characters `√ü`) yields `…start%25'%22%0D%0A%E2%88%9A%C3%BCend` under
`PathSegment` and `…start%25%27%22%0D%0A%E2%88%9A%C3%BCend` under `AttrChar`;
the outputs the claim stated arise for the name ending in `ß` instead. -/
theorem claim6_amended_format_parameter (set : Nat → Bool)
    (enc : PercentEncoding) (name value : List Nat) :
    ((percentEncode set value).length = value.length ↔ percentEncode set value = value)
    ∧ (value.length = (enc.encodeValue value).length →
        enc.format_parameter name value
          = name ++ utf8Bytes "=\"" ++ value ++ [34])
    ∧ (value.length ≠ (enc.encodeValue value).length →
        enc.format_parameter name value
          = name ++ utf8Bytes "*=utf-8''" ++ enc.encodeValue value)
    ∧ PercentEncoding.NoOp.encodeValue value = value
    ∧ (∀ b, b < 256 →
        shouldPercentEncode PATH_SEGMENT_ENCODE_SET b
          = (decide (128 ≤ b) || decide (b < 32) || b == 127
            || ([32, 34, 60, 62, 96, 35, 63, 123, 125, 47, 37] : List Nat).contains b))
    ∧ (∀ b, b < 256 →
        shouldPercentEncode ATTR_CHAR_ENCODE_SET b
          = !(isAsciiAlphanumeric b
            || ([33, 35, 36, 38, 43, 45, 46, 94, 95, 96, 124, 126] : List Nat).contains b))
    ∧ PercentEncoding.PathSegment.encode_headers
        (utf8Bytes "start%'\"\r\n√üend") PartMetadata.new
      = utf8Bytes
          "Content-Disposition: form-data; name*=utf-8''start%25'%22%0D%0A%E2%88%9A%C3%BCend"
    ∧ PercentEncoding.AttrChar.encode_headers
        (utf8Bytes "start%'\"\r\n√üend") PartMetadata.new
      = utf8Bytes
          "Content-Disposition: form-data; name*=utf-8''start%25%27%22%0D%0A%E2%88%9A%C3%BCend"
    ∧ PercentEncoding.PathSegment.encode_headers
        (utf8Bytes "start%'\"\r\nßend") PartMetadata.new
      = utf8Bytes
          "Content-Disposition: form-data; name*=utf-8''start%25'%22%0D%0A%C3%9Fend"
    ∧ PercentEncoding.AttrChar.encode_headers
        (utf8Bytes "start%'\"\r\nßend") PartMetadata.new
      = utf8Bytes
          "Content-Disposition: form-data; name*=utf-8''start%25%27%22%0D%0A%C3%9Fend" := by
  refine ⟨percentEncode_length_eq_iff set value, ?_, ?_, rfl, by decide, by decide,
    by decide, by decide, by decide, by decide⟩
  · intro h
    simp [PercentEncoding.format_parameter, h]
  · intro h
    simp only [PercentEncoding.format_parameter]
    rw [if_neg]
    simp [h]

theorem claim6_amended_format_parameter_witness :
    ((utf8Bytes "ab").length = (PercentEncoding.PathSegment.encodeValue (utf8Bytes "ab")).length
      ∧ PercentEncoding.PathSegment.format_parameter (utf8Bytes "name") (utf8Bytes "ab")
        = utf8Bytes "name" ++ utf8Bytes "=\"" ++ utf8Bytes "ab" ++ [34])
    ∧ ((utf8Bytes "a b").length ≠ (PercentEncoding.PathSegment.encodeValue (utf8Bytes "a b")).length
      ∧ PercentEncoding.PathSegment.format_parameter (utf8Bytes "name") (utf8Bytes "a b")
        = utf8Bytes "name" ++ utf8Bytes "*=utf-8''"
          ++ PercentEncoding.PathSegment.encodeValue (utf8Bytes "a b"))
    ∧ (37 < 256 ∧ shouldPercentEncode PATH_SEGMENT_ENCODE_SET 37
        = (decide (128 ≤ 37) || decide (37 < 32) || 37 == 127
          || ([32, 34, 60, 62, 96, 35, 63, 123, 125, 47, 37] : List Nat).contains 37)) :=
  ⟨⟨by decide,
    (claim6_amended_format_parameter PATH_SEGMENT_ENCODE_SET PercentEncoding.PathSegment
      (utf8Bytes "name") (utf8Bytes "ab")).2.1 (by decide)⟩,
   ⟨by decide,
    (claim6_amended_format_parameter PATH_SEGMENT_ENCODE_SET PercentEncoding.PathSegment
      (utf8Bytes "name") (utf8Bytes "a b")).2.2.1 (by decide)⟩,
   by decide,
   (claim6_amended_format_parameter PATH_SEGMENT_ENCODE_SET PercentEncoding.PathSegment
      (utf8Bytes "name") (utf8Bytes "a b")).2.2.2.2.1 37 (by decide)⟩

/-! ## Redirect engine (wasm/client.rs) and cookies (cookie.rs)

Header maps are association lists of lowercase header name (string) and
value bytes; `insert` replaces all values of the name, `get` returns the
first, `get_all` all of them in order. -/

abbrev Headers := List (String × List Nat)

def hGet (hs : Headers) (name : String) : Option (List Nat) :=
  (hs.find? fun kv => kv.1 == name).map (·.2)

def hGetAll (hs : Headers) (name : String) : List (List Nat) :=
  (hs.filter fun kv => kv.1 == name).map (·.2)

def hRemove (hs : Headers) (name : String) : Headers :=
  hs.filter fun kv => kv.1 != name

def hInsert (hs : Headers) (name : String) (v : List Nat) : Headers :=
  hRemove hs name ++ [(name, v)]

inductive Method where
  | GET
  | HEAD
  | POST
  | PUT
  | DELETE
  | PATCH
  | other (s : String)
deriving DecidableEq

/-- The pieces of a `url::Url` value the engine reads and writes. -/
structure Url where
  scheme : String
  username : String
  password : Option String
  host : String
  port : Option Nat
  path : String
  query : Option String
  fragment : Option String
deriving DecidableEq

/-- `Url::as_str`, the serialization of the url. -/
def Url.render (u : Url) : String :=
  u.scheme ++ "://"
    ++ (if u.username = "" ∧ u.password = none then ""
        else u.username
          ++ (match u.password with | some p => ":" ++ p | none => "") ++ "@")
    ++ u.host
    ++ (match u.port with | some p => ":" ++ toString p | none => "")
    ++ u.path
    ++ (match u.query with | some q => "?" ++ q | none => "")
    ++ (match u.fragment with | some f => "#" ++ f | none => "")

/-- `make_referer`: suppress the referer on an https-to-http transition,
otherwise serialize the previous url with username, password and fragment
cleared (a url string is always a valid header value, so the final
`.parse().ok()` succeeds). -/
def make_referer (next previous : Url) : Option (List Nat) :=
  if next.scheme = "http" ∧ previous.scheme = "https" then none
  else
    some (utf8Bytes (Url.render
      { previous with username := "", password := none, fragment := none }))

/-- `std::str::from_utf8` validity on bytes: ASCII, or well-formed 2-4 byte
sequences excluding overlongs, surrogates and values above U+10FFFF. -/
def isValidUtf8 : List Nat → Bool
  | [] => true
  | b :: bs =>
    if b < 128 then isValidUtf8 bs
    else if 194 ≤ b ∧ b ≤ 223 then
      match bs with
      | c :: bs2 => decide (128 ≤ c ∧ c ≤ 191) && isValidUtf8 bs2
      | [] => false
    else if b = 224 then
      match bs with
      | c :: d :: bs2 =>
        decide (160 ≤ c ∧ c ≤ 191) && decide (128 ≤ d ∧ d ≤ 191) && isValidUtf8 bs2
      | _ => false
    else if 225 ≤ b ∧ b ≤ 236 then
      match bs with
      | c :: d :: bs2 =>
        decide (128 ≤ c ∧ c ≤ 191) && decide (128 ≤ d ∧ d ≤ 191) && isValidUtf8 bs2
      | _ => false
    else if b = 237 then
      match bs with
      | c :: d :: bs2 =>
        decide (128 ≤ c ∧ c ≤ 159) && decide (128 ≤ d ∧ d ≤ 191) && isValidUtf8 bs2
      | _ => false
    else if 238 ≤ b ∧ b ≤ 239 then
      match bs with
      | c :: d :: bs2 =>
        decide (128 ≤ c ∧ c ≤ 191) && decide (128 ≤ d ∧ d ≤ 191) && isValidUtf8 bs2
      | _ => false
    else if b = 240 then
      match bs with
      | c :: d :: e :: bs2 =>
        decide (144 ≤ c ∧ c ≤ 191) && decide (128 ≤ d ∧ d ≤ 191)
          && decide (128 ≤ e ∧ e ≤ 191) && isValidUtf8 bs2
      | _ => false
    else if 241 ≤ b ∧ b ≤ 243 then
      match bs with
      | c :: d :: e :: bs2 =>
        decide (128 ≤ c ∧ c ≤ 191) && decide (128 ≤ d ∧ d ≤ 191)
          && decide (128 ≤ e ∧ e ≤ 191) && isValidUtf8 bs2
      | _ => false
    else if b = 244 then
      match bs with
      | c :: d :: e :: bs2 =>
        decide (128 ≤ c ∧ c ≤ 143) && decide (128 ≤ d ∧ d ≤ 191)
          && decide (128 ≤ e ∧ e ≤ 191) && isValidUtf8 bs2
      | _ => false
    else false

/-- `redirect::Action`. -/
inductive Action where
  | Follow
  | Stop
  | LoopDetected
  | TooManyRedirects
deriving DecidableEq

/-- Modelled from the spec: `RedirectPolicy::default().check` lives in
`redirect.rs`, which is not among the sources; spec §4.3 gives the default
policy as a maximum hop count of 10 plus exact-url repetition detection
against the visited history, yielding `Follow` otherwise. -/
def defaultPolicyCheck (_status : Nat) (loc : Url) (urls : List Url) : Action :=
  if 10 < urls.length then .TooManyRedirects
  else if urls.contains loc then .LoopDetected
  else .Follow

/-- Modelled from the spec: `remove_sensitive_headers` lives in `redirect.rs`,
which is not among the sources; spec §4.3 step `Follow`: strip sensitive
headers (`Authorization`, `Cookie`, …) when the target's host/scheme/port
differs from the previous hop. -/
def remove_sensitive_headers (hs : Headers) (url : Url) (urls : List Url) : Headers :=
  match urls.getLast? with
  | some previous =>
    if url.scheme = previous.scheme ∧ url.host = previous.host
        ∧ url.port = previous.port then hs
    else hRemove (hRemove hs "cookie") "authorization"
  | none => hs

/-- Modelled from the spec: `Body::try_reuse` is called by `fetch` but absent
from the sources; spec §3: a `Reusable` body yields a clone snapshot plus a
one-time chunk sequence, a `Streaming` body yields no snapshot and the
original sequence. -/
def BodyM.try_reuse : BodyM → Option (List Nat) × BodyM
  | .reusable bytes => (some bytes, .reusable bytes)
  | .streaming chunks => (none, .streaming chunks)

/-- `add_cookie_header`: join the jar's cookies for the url as
`name1=value1; name2=value2` and insert a `Cookie` header unless empty. -/
def add_cookie_header (headers : Headers) (jarGet : Url → List (String × String))
    (url : Url) : Headers :=
  let header := String.intercalate "; "
    ((jarGet url).map fun c => c.1 ++ "=" ++ c.2)
  if header = "" then headers else hInsert headers "cookie" (utf8Bytes header)

/-- The `Location` resolution of `fetch`: take the header value, require it to
be valid UTF-8, join it against the current url (the `url` crate's join is
the parameter `joinUrl`), and keep the result only if it is also a valid
`http::Uri` (the parameter `tryUri`). -/
def locResolve (joinUrl : Url → List Nat → Option Url) (tryUri : Url → Bool)
    (url : Url) (resHeaders : Headers) : Option Url :=
  (hGet resHeaders "location").bind fun val =>
    (if isValidUtf8 val then joinUrl url val else none).bind fun loc =>
      if tryUri loc then some loc else none

/-- The `should_redirect` match of `fetch` with its in-place mutations: for
301/302/303 clear the body, strip the four content headers and downgrade a
non-GET/HEAD method to GET; for 307/308 eligibility requires a snapshot
(`Some(Some _)`) or no body at all (`None`); anything else is terminal.
Returns (eligible, method, headers, body). -/
def redirectDecide (status : Nat) (method : Method) (headers : Headers)
    (body : Option (Option (List Nat))) :
    Bool × Method × Headers × Option (Option (List Nat)) :=
  if status = 301 ∨ status = 302 ∨ status = 303 then
    (true,
     (match method with
      | Method.GET | Method.HEAD => method
      | _ => Method.GET),
     hRemove (hRemove (hRemove (hRemove headers "transfer-encoding")
       "content-encoding") "content-type") "content-length",
     none)
  else if status = 307 ∨ status = 308 then
    ((match body with
      | some (some _) => true
      | none => true
      | some none => false),
     method, headers, body)
  else (false, method, headers, body)

/-- The outcome of one iteration of the `fetch` loop. -/
inductive StepResult where
  | next (method : Method) (url : Url) (headers : Headers)
      (snapshot : Option (Option (List Nat))) (submitted : Option (List Nat))
      (urls : List Url)
  | terminal (status : Nat) (url : Url)
  | errLoop (url : Url)
  | errTooMany (url : Url)
deriving DecidableEq

/-- The header mutations of the `Follow` branch, applied to the headers as
mutated by `redirectDecide`: insert the referer (when not suppressed), strip
sensitive headers against the pushed history, and re-attach cookies for the
new url when a jar is configured. -/
def followHeaders (jar : Option (Url → List (String × String)))
    (headers : Headers) (url loc : Url) (urls' : List Url) : Headers :=
  let h1 :=
    match make_referer loc url with
    | some referer => hInsert headers "referer" referer
    | none => headers
  let h2 := remove_sensitive_headers h1 loc urls'
  match jar with
  | some jarGet => add_cookie_header h2 jarGet loc
  | none => h2

/-- The body submitted on the next hop: `Some(Some(b))` replays the snapshot
as a reusable body, everything else submits no body. -/
def submittedOf (body : Option (Option (List Nat))) : Option (List Nat) :=
  match body with
  | some (some b) => some b
  | _ => none

/-- One iteration of the redirect loop in `fetch` (wasm/client.rs lines
168-272), after the response of the current hop arrived: decide eligibility
and mutate method/headers/body, resolve `Location`, set the referer, push the
visited url, consult the policy, and either follow (stripping sensitive
headers, re-adding cookies, submitting the reusable snapshot), stop, fail, or
return the current response as terminal. -/
def fetchStep (jar : Option (Url → List (String × String)))
    (joinUrl : Url → List Nat → Option Url) (tryUri : Url → Bool)
    (method : Method) (url : Url) (headers : Headers)
    (body : Option (Option (List Nat))) (urls : List Url)
    (status : Nat) (resHeaders : Headers) : StepResult :=
  let d := redirectDecide status method headers body
  if d.1 then
    match locResolve joinUrl tryUri url resHeaders with
    | some loc =>
      match defaultPolicyCheck status loc (urls ++ [url]) with
      | .Follow =>
        .next d.2.1 loc (followHeaders jar d.2.2.1 url loc (urls ++ [url]))
          d.2.2.2 (submittedOf d.2.2.2) (urls ++ [url])
      | .Stop => .terminal status url
      | .LoopDetected => .errLoop url
      | .TooManyRedirects => .errTooMany url
    | none => .terminal status url
  else .terminal status url

/-! ## Cookie parsing (cookie.rs) -/

/-- `CookieParseError`: a UTF-8 decode failure or a wrapped `cookie` crate
parse error (the external error is abstracted as a code). -/
inductive CookieParseError where
  | utf8Error
  | parseError (e : Nat)
deriving DecidableEq

/-- The parsed cookie data the engine passes on to the store. -/
structure RawCookie where
  name : String
  value : String
deriving DecidableEq

/-- `Cookie::parse`: decode the header value as UTF-8 and defer to the
external `cookie` crate parser (the parameter `rawParse`), wrapping either
failure as a typed `CookieParseError` value. -/
def cookieParse (rawParse : List Nat → Except Nat RawCookie) (v : List Nat) :
    Except CookieParseError RawCookie :=
  if isValidUtf8 v then
    match rawParse v with
    | .ok c => .ok c
    | .error e => .error (.parseError e)
  else .error .utf8Error

/-- `extract_response_cookies`: parse every `Set-Cookie` value of the
response, in order. -/
def extractResponseCookies (rawParse : List Nat → Except Nat RawCookie)
    (resHeaders : Headers) : List (Except CookieParseError RawCookie) :=
  (hGetAll resHeaders "set-cookie").map (cookieParse rawParse)

/-- The `.filter_map(|res| res.ok())` in `fetch`: the cookies actually handed
to `store_response_cookies`. -/
def recordedCookies (rawParse : List Nat → Except Nat RawCookie)
    (resHeaders : Headers) : List RawCookie :=
  (extractResponseCookies rawParse resHeaders).filterMap fun r =>
    match r with
    | .ok c => some c
    | .error _ => none

/-- One whole hop of response processing: record the response cookies (when a
jar is configured) and compute the redirect decision.  The first component is
the list handed to the store, the second the hop's outcome. -/
def hopProcess (rawParse : List Nat → Except Nat RawCookie)
    (jar : Option (Url → List (String × String)))
    (joinUrl : Url → List Nat → Option Url) (tryUri : Url → Bool)
    (method : Method) (url : Url) (headers : Headers)
    (body : Option (Option (List Nat))) (urls : List Url)
    (status : Nat) (resHeaders : Headers) : List RawCookie × StepResult :=
  ((match jar with
    | some _ => recordedCookies rawParse resHeaders
    | none => []),
   fetchStep jar joinUrl tryUri method url headers body urls status resHeaders)

/-! ## Header-map lemmas -/

lemma hGet_cons (kv : String × List Nat) (rest : Headers) (m : String) :
    hGet (kv :: rest) m = if kv.1 = m then some kv.2 else hGet rest m := by
  by_cases h : kv.1 = m
  · rw [hGet, List.find?_cons_of_pos _ (by simp [h]), if_pos h]
    rfl
  · rw [hGet, List.find?_cons_of_neg _ (by simp [h]), if_neg h]
    rfl

lemma hRemove_cons (kv : String × List Nat) (rest : Headers) (n : String) :
    hRemove (kv :: rest) n
      = if kv.1 = n then hRemove rest n else kv :: hRemove rest n := by
  by_cases h : kv.1 = n <;> simp [hRemove, List.filter_cons, h]

lemma hGet_hRemove_self (hs : Headers) (n : String) :
    hGet (hRemove hs n) n = none := by
  induction hs with
  | nil => rfl
  | cons kv rest ih =>
    rw [hRemove_cons]
    by_cases hk : kv.1 = n
    · rw [if_pos hk]
      exact ih
    · rw [if_neg hk, hGet_cons, if_neg hk]
      exact ih

lemma hGet_hRemove_ne (hs : Headers) (n m : String) (h : m ≠ n) :
    hGet (hRemove hs n) m = hGet hs m := by
  induction hs with
  | nil => rfl
  | cons kv rest ih =>
    rw [hRemove_cons]
    by_cases hk : kv.1 = n
    · have hkm : ¬kv.1 = m := by rw [hk]; exact fun he => h he.symm
      rw [if_pos hk, hGet_cons, if_neg hkm]
      exact ih
    · rw [if_neg hk, hGet_cons, hGet_cons]
      by_cases hm : kv.1 = m
      · rw [if_pos hm, if_pos hm]
      · rw [if_neg hm, if_neg hm]
        exact ih

lemma hGet_append (a b : Headers) (m : String) :
    hGet (a ++ b) m = (hGet a m).orElse (fun _ => hGet b m) := by
  induction a with
  | nil => rfl
  | cons kv rest ih =>
    rw [List.cons_append, hGet_cons, hGet_cons]
    by_cases hm : kv.1 = m
    · rw [if_pos hm, if_pos hm]
      rfl
    · rw [if_neg hm, if_neg hm]
      exact ih

lemma hGet_hInsert_self (hs : Headers) (n : String) (v : List Nat) :
    hGet (hInsert hs n v) n = some v := by
  rw [hInsert, hGet_append, hGet_hRemove_self]
  show hGet [(n, v)] n = some v
  rw [hGet_cons, if_pos rfl]

lemma hGet_hInsert_ne (hs : Headers) (n m : String) (v : List Nat) (h : m ≠ n) :
    hGet (hInsert hs n v) m = hGet hs m := by
  rw [hInsert, hGet_append, hGet_hRemove_ne hs n m h]
  have hone : hGet [(n, v)] m = none := by
    rw [hGet_cons, if_neg (fun he => h he.symm)]
    rfl
  rw [hone]
  cases hGet hs m <;> rfl

/-- `redirectDecide` never touches the referer header. -/
lemma redirectDecide_referer (status : Nat) (method : Method) (headers : Headers)
    (body : Option (Option (List Nat))) :
    hGet (redirectDecide status method headers body).2.2.1 "referer"
      = hGet headers "referer" := by
  unfold redirectDecide
  by_cases h1 : status = 301 ∨ status = 302 ∨ status = 303
  · simp [h1, hGet_hRemove_ne]
  · by_cases h2 : status = 307 ∨ status = 308 <;> simp [h1, h2]

/-- `remove_sensitive_headers` never touches the referer header. -/
lemma remove_sensitive_headers_referer (hs : Headers) (url : Url) (urls : List Url) :
    hGet (remove_sensitive_headers hs url urls) "referer" = hGet hs "referer" := by
  unfold remove_sensitive_headers
  cases urls.getLast? with
  | none => rfl
  | some previous =>
    by_cases hsame : url.scheme = previous.scheme ∧ url.host = previous.host
        ∧ url.port = previous.port
    · simp [hsame]
    · simp [hsame, hGet_hRemove_ne]

/-- `add_cookie_header` never touches the referer header. -/
lemma add_cookie_header_referer (hs : Headers) (jarGet : Url → List (String × String))
    (url : Url) :
    hGet (add_cookie_header hs jarGet url) "referer" = hGet hs "referer" := by
  unfold add_cookie_header
  by_cases he : String.intercalate "; " ((jarGet url).map fun c => c.1 ++ "=" ++ c.2) = ""
  · simp [he]
  · simp [he, hGet_hInsert_ne]

lemma followHeaders_referer_none (jar : Option (Url → List (String × String)))
    (headers : Headers) (url loc : Url) (urls' : List Url)
    (h : make_referer loc url = none) :
    hGet (followHeaders jar headers url loc urls') "referer" = hGet headers "referer" := by
  unfold followHeaders
  rw [h]
  cases jar with
  | none => exact remove_sensitive_headers_referer ..
  | some jarGet =>
    rw [add_cookie_header_referer, remove_sensitive_headers_referer]

lemma followHeaders_referer_some (jar : Option (Url → List (String × String)))
    (headers : Headers) (url loc : Url) (urls' : List Url) (r : List Nat)
    (h : make_referer loc url = some r) :
    hGet (followHeaders jar headers url loc urls') "referer" = some r := by
  unfold followHeaders
  rw [h]
  cases jar with
  | none => rw [remove_sensitive_headers_referer, hGet_hInsert_self]
  | some jarGet =>
    rw [add_cookie_header_referer, remove_sensitive_headers_referer, hGet_hInsert_self]

/-- Reduction of `fetchStep` on an eligible hop whose location resolves and
whose policy answers `Follow`. -/
lemma fetchStep_follow (jar : Option (Url → List (String × String)))
    (joinUrl : Url → List Nat → Option Url) (tryUri : Url → Bool)
    (method : Method) (url : Url) (headers : Headers)
    (body : Option (Option (List Nat))) (urls : List Url)
    (status : Nat) (resHeaders : Headers) (loc : Url)
    (helig : (redirectDecide status method headers body).1 = true)
    (hloc : locResolve joinUrl tryUri url resHeaders = some loc)
    (hpol : defaultPolicyCheck status loc (urls ++ [url]) = .Follow) :
    fetchStep jar joinUrl tryUri method url headers body urls status resHeaders
      = .next (redirectDecide status method headers body).2.1 loc
          (followHeaders jar (redirectDecide status method headers body).2.2.1
            url loc (urls ++ [url]))
          (redirectDecide status method headers body).2.2.2
          (submittedOf (redirectDecide status method headers body).2.2.2)
          (urls ++ [url]) := by
  simp [fetchStep, helig, hloc, hpol]

/-- Reduction of `fetchStep` on a non-eligible hop. -/
lemma fetchStep_not_eligible (jar : Option (Url → List (String × String)))
    (joinUrl : Url → List Nat → Option Url) (tryUri : Url → Bool)
    (method : Method) (url : Url) (headers : Headers)
    (body : Option (Option (List Nat))) (urls : List Url)
    (status : Nat) (resHeaders : Headers)
    (helig : (redirectDecide status method headers body).1 = false) :
    fetchStep jar joinUrl tryUri method url headers body urls status resHeaders
      = .terminal status url := by
  simp [fetchStep, helig]

/-! ## Claim theorems: redirect engine and cookies -/

/-- C3: on a 307/308 response, a request with no body at all or with a
reusable replay snapshot is eligible, and (when the location resolves and the
policy follows) the next hop is submitted with the snapshot or with no body,
the method unchanged; a streaming body (no snapshot) makes the redirect not
followed and the current response is returned as the terminal result, not as
an error. -/
theorem claim3_replay_snapshot_gates_307_308
    (jar : Option (Url → List (String × String)))
    (joinUrl : Url → List Nat → Option Url) (tryUri : Url → Bool)
    (method : Method) (url : Url) (headers : Headers)
    (body : Option (Option (List Nat))) (urls : List Url)
    (status : Nat) (resHeaders : Headers)
    (hst : status = 307 ∨ status = 308) :
    (body = none →
      (redirectDecide status method headers body).1 = true
      ∧ ∀ loc, locResolve joinUrl tryUri url resHeaders = some loc →
          defaultPolicyCheck status loc (urls ++ [url]) = .Follow →
          ∃ hs2, fetchStep jar joinUrl tryUri method url headers body urls status resHeaders
            = .next method loc hs2 none none (urls ++ [url]))
    ∧ (∀ b, body = some (some b) →
      (redirectDecide status method headers body).1 = true
      ∧ ∀ loc, locResolve joinUrl tryUri url resHeaders = some loc →
          defaultPolicyCheck status loc (urls ++ [url]) = .Follow →
          ∃ hs2, fetchStep jar joinUrl tryUri method url headers body urls status resHeaders
            = .next method loc hs2 (some (some b)) (some b) (urls ++ [url]))
    ∧ (body = some none →
      fetchStep jar joinUrl tryUri method url headers body urls status resHeaders
        = .terminal status url)
    ∧ (∀ bytes, BodyM.try_reuse (BodyM.reusable bytes)
        = (some bytes, BodyM.reusable bytes))
    ∧ (∀ chunks, BodyM.try_reuse (BodyM.streaming chunks)
        = (none, BodyM.streaming chunks)) := by
  have h301 : ¬(status = 301 ∨ status = 302 ∨ status = 303) := by
    rcases hst with h | h <;> simp [h]
  have hd : redirectDecide status method headers body
      = ((match body with
          | some (some _) => true
          | none => true
          | some none => false), method, headers, body) := by
    rw [redirectDecide.eq_def, if_neg h301, if_pos hst]
  refine ⟨?_, ?_, ?_, fun _ => rfl, fun _ => rfl⟩
  · intro hb
    subst hb
    have hd' : redirectDecide status method headers none = (true, method, headers, none) := hd
    refine ⟨by rw [hd'], ?_⟩
    intro loc hloc hpol
    refine ⟨followHeaders jar headers url loc (urls ++ [url]), ?_⟩
    rw [fetchStep_follow jar joinUrl tryUri method url headers none urls status
      resHeaders loc (by rw [hd']) hloc hpol, hd']
    rfl
  · intro b hb
    subst hb
    have hd' : redirectDecide status method headers (some (some b))
        = (true, method, headers, some (some b)) := hd
    refine ⟨by rw [hd'], ?_⟩
    intro loc hloc hpol
    refine ⟨followHeaders jar headers url loc (urls ++ [url]), ?_⟩
    rw [fetchStep_follow jar joinUrl tryUri method url headers (some (some b)) urls
      status resHeaders loc (by rw [hd']) hloc hpol, hd']
    rfl
  · intro hb
    subst hb
    exact fetchStep_not_eligible jar joinUrl tryUri method url headers (some none)
      urls status resHeaders (by rw [hd])

/-- C4: on a 301/302/303 response the redirect is eligible and, for the next
hop, the body is cleared, the `Transfer-Encoding`, `Content-Encoding`,
`Content-Type` and `Content-Length` headers are removed (other headers kept),
and the method is downgraded to GET unless it already is GET or HEAD; a
following hop is submitted with no body. -/
theorem claim4_see_other_resets_method_and_body
    (jar : Option (Url → List (String × String)))
    (joinUrl : Url → List Nat → Option Url) (tryUri : Url → Bool)
    (method : Method) (url : Url) (headers : Headers)
    (body : Option (Option (List Nat))) (urls : List Url)
    (status : Nat) (resHeaders : Headers)
    (hst : status = 301 ∨ status = 302 ∨ status = 303) :
    (redirectDecide status method headers body).1 = true
    ∧ (redirectDecide status method headers body).2.2.2 = none
    ∧ hGet (redirectDecide status method headers body).2.2.1 "transfer-encoding" = none
    ∧ hGet (redirectDecide status method headers body).2.2.1 "content-encoding" = none
    ∧ hGet (redirectDecide status method headers body).2.2.1 "content-type" = none
    ∧ hGet (redirectDecide status method headers body).2.2.1 "content-length" = none
    ∧ (∀ nm, nm ≠ "transfer-encoding" → nm ≠ "content-encoding" →
        nm ≠ "content-type" → nm ≠ "content-length" →
        hGet (redirectDecide status method headers body).2.2.1 nm = hGet headers nm)
    ∧ ((method = .GET ∨ method = .HEAD) →
        (redirectDecide status method headers body).2.1 = method)
    ∧ (method ≠ .GET → method ≠ .HEAD →
        (redirectDecide status method headers body).2.1 = .GET)
    ∧ (∀ loc, locResolve joinUrl tryUri url resHeaders = some loc →
        defaultPolicyCheck status loc (urls ++ [url]) = .Follow →
        ∃ hs2, fetchStep jar joinUrl tryUri method url headers body urls status resHeaders
          = .next (redirectDecide status method headers body).2.1 loc hs2 none none
              (urls ++ [url])) := by
  have hd : redirectDecide status method headers body
      = (true,
         (match method with
          | Method.GET | Method.HEAD => method
          | _ => Method.GET),
         hRemove (hRemove (hRemove (hRemove headers "transfer-encoding")
           "content-encoding") "content-type") "content-length",
         none) := by
    rw [redirectDecide.eq_def, if_pos hst]
  refine ⟨by rw [hd], by rw [hd], ?_, ?_, ?_, ?_, ?_, ?_, ?_, ?_⟩
  · rw [hd]
    show hGet (hRemove (hRemove (hRemove (hRemove headers "transfer-encoding")
      "content-encoding") "content-type") "content-length") "transfer-encoding" = none
    rw [hGet_hRemove_ne _ _ _ (by decide), hGet_hRemove_ne _ _ _ (by decide),
      hGet_hRemove_ne _ _ _ (by decide), hGet_hRemove_self]
  · rw [hd]
    show hGet (hRemove (hRemove (hRemove (hRemove headers "transfer-encoding")
      "content-encoding") "content-type") "content-length") "content-encoding" = none
    rw [hGet_hRemove_ne _ _ _ (by decide), hGet_hRemove_ne _ _ _ (by decide),
      hGet_hRemove_self]
  · rw [hd]
    show hGet (hRemove (hRemove (hRemove (hRemove headers "transfer-encoding")
      "content-encoding") "content-type") "content-length") "content-type" = none
    rw [hGet_hRemove_ne _ _ _ (by decide), hGet_hRemove_self]
  · rw [hd]
    show hGet (hRemove (hRemove (hRemove (hRemove headers "transfer-encoding")
      "content-encoding") "content-type") "content-length") "content-length" = none
    rw [hGet_hRemove_self]
  · intro nm h1 h2 h3 h4
    rw [hd]
    show hGet (hRemove (hRemove (hRemove (hRemove headers "transfer-encoding")
      "content-encoding") "content-type") "content-length") nm = hGet headers nm
    rw [hGet_hRemove_ne _ _ _ h4, hGet_hRemove_ne _ _ _ h3,
      hGet_hRemove_ne _ _ _ h2, hGet_hRemove_ne _ _ _ h1]
  · intro hgh
    rw [hd]
    rcases hgh with h | h <;> subst h <;> rfl
  · intro h1 h2
    rw [hd]
    cases method with
    | GET => exact absurd rfl h1
    | HEAD => exact absurd rfl h2
    | POST => rfl
    | PUT => rfl
    | DELETE => rfl
    | PATCH => rfl
    | other s => rfl
  · intro loc hloc hpol
    refine ⟨followHeaders jar (redirectDecide status method headers body).2.2.1
      url loc (urls ++ [url]), ?_⟩
    rw [fetchStep_follow jar joinUrl tryUri method url headers body urls status
      resHeaders loc (by rw [hd]) hloc hpol]
    rw [hd]
    rfl

/-- C5: on following a redirect, the engine never sets a referer when moving
from an https url to an http url (the referer of the next hop is whatever it
already was); for every other scheme combination it sets the referer to the
previous url with user-info and fragment stripped. -/
theorem claim5_referer_cross_scheme
    (jar : Option (Url → List (String × String)))
    (joinUrl : Url → List Nat → Option Url) (tryUri : Url → Bool)
    (method : Method) (url : Url) (headers : Headers)
    (body : Option (Option (List Nat))) (urls : List Url)
    (status : Nat) (resHeaders : Headers) (loc : Url)
    (helig : (redirectDecide status method headers body).1 = true)
    (hloc : locResolve joinUrl tryUri url resHeaders = some loc)
    (hpol : defaultPolicyCheck status loc (urls ++ [url]) = .Follow) :
    (loc.scheme = "http" ∧ url.scheme = "https" →
      make_referer loc url = none
      ∧ ∃ hs2,
          fetchStep jar joinUrl tryUri method url headers body urls status resHeaders
            = .next (redirectDecide status method headers body).2.1 loc hs2
                (redirectDecide status method headers body).2.2.2
                (submittedOf (redirectDecide status method headers body).2.2.2)
                (urls ++ [url])
          ∧ hGet hs2 "referer" = hGet headers "referer")
    ∧ (¬(loc.scheme = "http" ∧ url.scheme = "https") →
      make_referer loc url
        = some (utf8Bytes (Url.render
            { url with username := "", password := none, fragment := none }))
      ∧ ∃ hs2,
          fetchStep jar joinUrl tryUri method url headers body urls status resHeaders
            = .next (redirectDecide status method headers body).2.1 loc hs2
                (redirectDecide status method headers body).2.2.2
                (submittedOf (redirectDecide status method headers body).2.2.2)
                (urls ++ [url])
          ∧ hGet hs2 "referer"
            = some (utf8Bytes (Url.render
                { url with username := "", password := none, fragment := none }))) := by
  constructor
  · intro hsup
    have hmr : make_referer loc url = none := by
      rw [make_referer, if_pos hsup]
    refine ⟨hmr, ⟨followHeaders jar (redirectDecide status method headers body).2.2.1
      url loc (urls ++ [url]),
      fetchStep_follow jar joinUrl tryUri method url headers body urls status
        resHeaders loc helig hloc hpol, ?_⟩⟩
    rw [followHeaders_referer_none _ _ _ _ _ hmr, redirectDecide_referer]
  · intro hnsup
    have hmr : make_referer loc url
        = some (utf8Bytes (Url.render
            { url with username := "", password := none, fragment := none })) := by
      rw [make_referer, if_neg hnsup]
    refine ⟨hmr, ⟨followHeaders jar (redirectDecide status method headers body).2.2.1
      url loc (urls ++ [url]),
      fetchStep_follow jar joinUrl tryUri method url headers body urls status
        resHeaders loc helig hloc hpol, ?_⟩⟩
    rw [followHeaders_referer_some _ _ _ _ _ _ hmr]

/-- C9: a `Set-Cookie` value that is not valid UTF-8, or that the cookie
parser rejects, yields a typed `CookieParseError` value; response processing
hands the store exactly the successfully parsed cookies, in order, skipping
the failures; and the hop's outcome does not depend on the parser at all, so
a cookie parse failure can never fail the hop or the request. -/
theorem claim9_cookie_parse_failures_skipped
    (rawParse rawParse2 : List Nat → Except Nat RawCookie)
    (jar : Option (Url → List (String × String)))
    (joinUrl : Url → List Nat → Option Url) (tryUri : Url → Bool)
    (method : Method) (url : Url) (headers : Headers)
    (body : Option (Option (List Nat))) (urls : List Url)
    (status : Nat) (resHeaders : Headers) :
    (∀ v, isValidUtf8 v = false → cookieParse rawParse v = .error .utf8Error)
    ∧ (∀ v e, isValidUtf8 v = true → rawParse v = .error e →
        cookieParse rawParse v = .error (.parseError e))
    ∧ (∀ resH, recordedCookies rawParse resH
        = (hGetAll resH "set-cookie").filterMap
            fun v => (cookieParse rawParse v).toOption)
    ∧ (hopProcess rawParse jar joinUrl tryUri method url headers body urls
          status resHeaders).2
      = (hopProcess rawParse2 jar joinUrl tryUri method url headers body urls
          status resHeaders).2 := by
  refine ⟨?_, ?_, ?_, rfl⟩
  · intro v h
    simp [cookieParse, h]
  · intro v e hv he
    simp [cookieParse, hv, he]
  · intro resH
    rw [recordedCookies, extractResponseCookies, List.filterMap_map]
    have hfun : ((fun r => match r with
        | Except.ok c => some c
        | Except.error _ => none) ∘ cookieParse rawParse)
        = fun v => (cookieParse rawParse v).toOption := by
      funext v
      rcases h : cookieParse rawParse v with e | c <;>
        simp [Function.comp, h, Except.toOption]
    rw [hfun]

/-! ## Concrete fixtures and witnesses for the redirect/cookie claims -/

def urlHttpsX : Url := ⟨"https", "", none, "x", none, "/", none, none⟩

def urlHttpY : Url := ⟨"http", "", none, "y", none, "/", none, none⟩

def urlHttpsY : Url := ⟨"https", "", none, "y", none, "/", none, none⟩

def joinToHttpY : Url → List Nat → Option Url := fun _ _ => some urlHttpY

def joinToHttpsY : Url → List Nat → Option Url := fun _ _ => some urlHttpsY

def allUris : Url → Bool := fun _ => true

def locHeaders : Headers := [("location", utf8Bytes "http://y/")]

def demoHeaders : Headers :=
  [("content-type", utf8Bytes "text/plain"), ("x-custom", [1])]

theorem claim3_replay_snapshot_gates_307_308_witness :
    (∃ hs2, fetchStep none joinToHttpY allUris .POST urlHttpsX []
        (some (some [1, 2])) [] 307 locHeaders
      = .next .POST urlHttpY hs2 (some (some [1, 2])) (some [1, 2]) ([] ++ [urlHttpsX]))
    ∧ fetchStep none joinToHttpY allUris .POST urlHttpsX [] (some none) [] 307 locHeaders
      = .terminal 307 urlHttpsX :=
  ⟨((claim3_replay_snapshot_gates_307_308 none joinToHttpY allUris .POST urlHttpsX []
      (some (some [1, 2])) [] 307 locHeaders (Or.inl rfl)).2.1 [1, 2] rfl).2
      urlHttpY (by decide) (by decide),
   (claim3_replay_snapshot_gates_307_308 none joinToHttpY allUris .POST urlHttpsX []
      (some none) [] 307 locHeaders (Or.inl rfl)).2.2.1 rfl⟩

theorem claim4_see_other_resets_method_and_body_witness :
    (redirectDecide 303 .POST demoHeaders (some (some [7]))).1 = true
    ∧ (redirectDecide 303 .POST demoHeaders (some (some [7]))).2.2.2 = none
    ∧ hGet (redirectDecide 303 .POST demoHeaders (some (some [7]))).2.2.1
        "content-type" = none
    ∧ hGet (redirectDecide 303 .POST demoHeaders (some (some [7]))).2.2.1
        "x-custom" = hGet demoHeaders "x-custom"
    ∧ (redirectDecide 303 .POST demoHeaders (some (some [7]))).2.1 = .GET :=
  ⟨(claim4_see_other_resets_method_and_body none joinToHttpY allUris .POST urlHttpsX
      demoHeaders (some (some [7])) [] 303 locHeaders (Or.inr (Or.inr rfl))).1,
   (claim4_see_other_resets_method_and_body none joinToHttpY allUris .POST urlHttpsX
      demoHeaders (some (some [7])) [] 303 locHeaders (Or.inr (Or.inr rfl))).2.1,
   (claim4_see_other_resets_method_and_body none joinToHttpY allUris .POST urlHttpsX
      demoHeaders (some (some [7])) [] 303 locHeaders (Or.inr (Or.inr rfl))).2.2.2.2.1,
   (claim4_see_other_resets_method_and_body none joinToHttpY allUris .POST urlHttpsX
      demoHeaders (some (some [7])) [] 303 locHeaders
      (Or.inr (Or.inr rfl))).2.2.2.2.2.2.1 "x-custom"
      (by decide) (by decide) (by decide) (by decide),
   (claim4_see_other_resets_method_and_body none joinToHttpY allUris .POST urlHttpsX
      demoHeaders (some (some [7])) [] 303 locHeaders
      (Or.inr (Or.inr rfl))).2.2.2.2.2.2.2.2.1 (by decide) (by decide)⟩

theorem claim5_referer_cross_scheme_witness :
    (make_referer urlHttpY urlHttpsX = none
      ∧ ∃ hs2,
          fetchStep none joinToHttpY allUris .GET urlHttpsX [] none [] 301 locHeaders
            = .next (redirectDecide 301 .GET [] none).2.1 urlHttpY hs2
                (redirectDecide 301 .GET [] none).2.2.2
                (submittedOf (redirectDecide 301 .GET [] none).2.2.2)
                ([] ++ [urlHttpsX])
          ∧ hGet hs2 "referer" = hGet ([] : Headers) "referer")
    ∧ (make_referer urlHttpsY urlHttpsX
        = some (utf8Bytes (Url.render
            { urlHttpsX with username := "", password := none, fragment := none }))
      ∧ ∃ hs2,
          fetchStep none joinToHttpsY allUris .GET urlHttpsX [] none [] 301 locHeaders
            = .next (redirectDecide 301 .GET [] none).2.1 urlHttpsY hs2
                (redirectDecide 301 .GET [] none).2.2.2
                (submittedOf (redirectDecide 301 .GET [] none).2.2.2)
                ([] ++ [urlHttpsX])
          ∧ hGet hs2 "referer"
            = some (utf8Bytes (Url.render
                { urlHttpsX with username := "", password := none, fragment := none }))) :=
  ⟨(claim5_referer_cross_scheme none joinToHttpY allUris .GET urlHttpsX [] none []
      301 locHeaders urlHttpY (by decide) (by decide) (by decide)).1 (by decide),
   (claim5_referer_cross_scheme none joinToHttpsY allUris .GET urlHttpsX [] none []
      301 locHeaders urlHttpsY (by decide) (by decide) (by decide)).2 (by decide)⟩

def rpStub : List Nat → Except Nat RawCookie :=
  fun v => if v = utf8Bytes "a=b" then .ok ⟨"a", "b"⟩ else .error 7

def rpStub2 : List Nat → Except Nat RawCookie := fun _ => .error 3

def cookieHeaders : Headers :=
  [("set-cookie", [255]), ("set-cookie", utf8Bytes "a=b")]

theorem claim9_cookie_parse_failures_skipped_witness :
    cookieParse rpStub [255] = .error .utf8Error
    ∧ cookieParse rpStub (utf8Bytes "bad") = .error (.parseError 7)
    ∧ recordedCookies rpStub cookieHeaders
      = (hGetAll cookieHeaders "set-cookie").filterMap
          (fun v => (cookieParse rpStub v).toOption)
    ∧ (hopProcess rpStub none joinToHttpY allUris .GET urlHttpsX [] none [] 200 []).2
      = (hopProcess rpStub2 none joinToHttpY allUris .GET urlHttpsX [] none [] 200 []).2 :=
  ⟨(claim9_cookie_parse_failures_skipped rpStub rpStub2 none joinToHttpY allUris
      .GET urlHttpsX [] none [] 200 []).1 [255] (by decide),
   (claim9_cookie_parse_failures_skipped rpStub rpStub2 none joinToHttpY allUris
      .GET urlHttpsX [] none [] 200 []).2.1 (utf8Bytes "bad") 7 (by decide) (by rfl),
   (claim9_cookie_parse_failures_skipped rpStub rpStub2 none joinToHttpY allUris
      .GET urlHttpsX [] none [] 200 []).2.2.1 cookieHeaders,
   (claim9_cookie_parse_failures_skipped rpStub rpStub2 none joinToHttpY allUris
      .GET urlHttpsX [] none [] 200 []).2.2.2⟩

end Reqwest
